import Mathlib

/-!
# Verification of the fake-filesystem core (nios-scriptable-wrapper)

Shallow embedding of the repository's in-memory simulated filesystem:
`FakeFile` (entry metadata holder), `FakeDirectory` (container node) and
`FilesystemWrapper` (tree factory).  TypeScript in-place mutation is
modelled by explicit state passing; a method that can `throw` returns
`Except FsError`.  JavaScript reference identity (`===`), used only by
`Array.prototype.indexOf` inside `addSubdirectory`, is modelled by
structural equality; on every state where the call happens after the
name-uniqueness guard the two coincide, because any structurally equal
earlier sibling would share the candidate's name and the guard would
already have thrown.
-/

set_option autoImplicit false

namespace NiosFs

/-- The errors thrown by the core, one constructor per distinct `throw`
site in the source. -/
inductive FsError where
  | invalidPath
  | duplicateFile (name : String)
  | duplicateDir (name : String)
  | subdirAddFailed
deriving DecidableEq, Repr

/-- The message carried by each thrown `Error`, exactly as built in the
source (template literals interpolating the colliding name). -/
def FsError.message : FsError → String
  | .invalidPath => "Invalid path."
  | .duplicateFile n => "A file with the name \x27" ++ n ++ "\x27 already exists."
  | .duplicateDir n => "A directory with the name \x27" ++ n ++ "\x27 already exists."
  | .subdirAddFailed => "Failed to add subdirectory."

/-- `FakeFile`: name, extension, tags, extended attributes (a
`Map<string,string>`, embedded as an insertion-ordered association
list), UTI string and bookmarks. -/
structure FakeFile where
  name : String
  extension : String
  tags : List String
  extattrs : List (String × String)
  uti : String
  bookmarks : List String
deriving DecidableEq, Repr

/-- The `FakeFile` constructor: `new FakeFile(name, extension)`. -/
def FakeFile.make (name extension : String) : FakeFile :=
  { name := name, extension := extension, tags := [], extattrs := [],
    uti := "", bookmarks := [] }

/-- `FakeFile.addTag`: pushes the tag iff it is not already present. -/
def FakeFile.addTag (f : FakeFile) (tag : String) : FakeFile :=
  if f.tags.contains tag then f else { f with tags := f.tags ++ [tag] }

/-- `FakeFile.removeTag`: removes the first occurrence iff present. -/
def FakeFile.removeTag (f : FakeFile) (tag : String) : FakeFile :=
  if f.tags.contains tag then { f with tags := f.tags.eraseIdx (f.tags.indexOf tag) }
  else f

/-- `FakeFile.allTags`: `Array.from(this.tags)`, a snapshot of the tag
list in insertion order. -/
def FakeFile.allTags (f : FakeFile) : List String :=
  f.tags

/-- `Map.prototype.get`: the value stored under `k`, if any. -/
def mapGet (m : List (String × String)) (k : String) : Option String :=
  (m.find? (fun p => p.1 == k)).map (fun p => p.2)

/-- `Map.prototype.set`: overwrites the entry for `k` in place if one
exists (keys stay unique and keep insertion order), else appends. -/
def mapSet (m : List (String × String)) (k v : String) : List (String × String) :=
  if m.any (fun p => p.1 == k) then
    m.map (fun p => if p.1 == k then (k, v) else p)
  else
    m ++ [(k, v)]

/-- `FakeFile.readExtendedAttribute`: `const attr = this.extattrs.get(name);
if (attr) return attr; return null;` — the truthiness test sends both a
missing key and a stored empty string to `null` (the empty string is the
only falsy string in JavaScript). -/
def FakeFile.readExtendedAttribute (f : FakeFile) (name : String) : Option String :=
  match mapGet f.extattrs name with
  | some v => if v = "" then none else some v
  | none => none

/-- `FakeFile.writeExtendedAttribute(value, name)`: upserts
`name -> value` (note the value-then-name argument order). -/
def FakeFile.writeExtendedAttribute (f : FakeFile) (value name : String) : FakeFile :=
  { f with extattrs := mapSet f.extattrs name value }

/-- `FakeFile.allExtendedAttributes`: snapshot of the attribute keys. -/
def FakeFile.allExtendedAttributes (f : FakeFile) : List String :=
  f.extattrs.map (fun p => p.1)

/-- `FakeFile.getUTI`. -/
def FakeFile.getUTI (f : FakeFile) : String :=
  f.uti

/-- `FakeDirectory`: a named container holding files, bookmarks and
subdirectories (a nested inductive because children are directories). -/
inductive FakeDirectory where
  | mk (name : String) (files : List FakeFile) (bookmarks : List String)
       (subdirectories : List FakeDirectory)
deriving Repr

def FakeDirectory.name : FakeDirectory → String
  | .mk n _ _ _ => n

def FakeDirectory.files : FakeDirectory → List FakeFile
  | .mk _ fs _ _ => fs

def FakeDirectory.bookmarks : FakeDirectory → List String
  | .mk _ _ bs _ => bs

def FakeDirectory.subdirectories : FakeDirectory → List FakeDirectory
  | .mk _ _ _ ds => ds

/-- Structural (decidable) equality on directories, standing in for
JavaScript reference identity where the source compares directories. -/
def FakeDirectory.beq : FakeDirectory → FakeDirectory → Bool
  | .mk n₁ f₁ b₁ d₁, .mk n₂ f₂ b₂ d₂ =>
    n₁ == n₂ && f₁ == f₂ && b₁ == b₂ && beqList d₁ d₂
where
  beqList : List FakeDirectory → List FakeDirectory → Bool
    | [], [] => true
    | x :: xs, y :: ys => beq x y && beqList xs ys
    | _, _ => false

instance : BEq FakeDirectory := ⟨FakeDirectory.beq⟩

/-- The `FakeDirectory` constructor: each optional argument defaults to
the empty list; no validation is performed on the initial lists. -/
def FakeDirectory.make (name : String) (files : List FakeFile := [])
    (bookmarks : List String := []) (subdirectories : List FakeDirectory := []) :
    FakeDirectory :=
  .mk name files bookmarks subdirectories

/-- `FakeDirectory.addFile`: throws when some stored file matches on both
name and extension, else pushes the file.  The throw happens before the
push, so on failure the directory is unchanged (the error carries no new
state). -/
def FakeDirectory.addFile (d : FakeDirectory) (file : FakeFile) :
    Except FsError FakeDirectory :=
  let exists_ :=
    (d.files.filter (fun f => f.name == file.name && f.extension == file.extension)).length > 0
  if exists_ then .error (.duplicateFile file.name)
  else .ok (.mk d.name (d.files ++ [file]) d.bookmarks d.subdirectories)

/-- `FakeDirectory.addFiles`: `for (let f of files) this.addFile(f)`.
A thrown error propagates, leaving the files added so far in place, so
the embedding returns the state reached together with the error, if
any. -/
def FakeDirectory.addFiles (d : FakeDirectory) :
    List FakeFile → FakeDirectory × Option FsError
  | [] => (d, none)
  | f :: fs =>
    match d.addFile f with
    | .ok d' => d'.addFiles fs
    | .error e => (d, some e)

/-- `FakeDirectory.addSubdirectory`: throws on a stored subdirectory of
the same name, else pushes `dir`, then looks `dir` up again with
`indexOf` (throwing if not found) and returns the stored element at that
index together with the updated parent. -/
def FakeDirectory.addSubdirectory (d : FakeDirectory) (dir : FakeDirectory) :
    Except FsError (FakeDirectory × FakeDirectory) :=
  let exists_ := (d.subdirectories.filter (fun s => s.name == dir.name)).length > 0
  if exists_ then .error (.duplicateDir dir.name)
  else
    match (d.subdirectories ++ [dir]).indexOf? dir with
    | none => .error .subdirAddFailed
    | some i =>
      .ok (.mk d.name d.files d.bookmarks (d.subdirectories ++ [dir]),
        (d.subdirectories ++ [dir]).getD i dir)

/-- `FakeDirectory.addSubdirectories`: `for (let d of dirs)
this.addSubdirectory(d)`, with the same propagate-and-keep semantics as
`addFiles`. -/
def FakeDirectory.addSubdirs (d : FakeDirectory) :
    List FakeDirectory → FakeDirectory × Option FsError
  | [] => (d, none)
  | s :: ss =>
    match d.addSubdirectory s with
    | .ok (d', _) => d'.addSubdirs ss
    | .error e => (d, some e)

/-- `FakeDirectory.listContents`: all subdirectory names in stored
order, then all file names in stored order. -/
def FakeDirectory.listContents (d : FakeDirectory) : List String :=
  d.subdirectories.map FakeDirectory.name ++ d.files.map FakeFile.name

/-- `FilesystemWrapper`: a handle exposing the root container. -/
structure FilesystemWrapper where
  root : FakeDirectory

/-- JavaScript `String.prototype.split("/")` on the character list: the
empty input yields one empty token, never zero tokens. -/
def splitSlashAux : List Char → List (List Char)
  | [] => [[]]
  | c :: cs =>
    match splitSlashAux cs with
    | t :: ts => if c = '/' then [] :: t :: ts else (c :: t) :: ts
    | [] => [[]]

/-- `path.split("/")` as a list of strings. -/
def splitSlash (path : String) : List String :=
  (splitSlashAux path.data).map (fun l => String.mk l)

/-- `FilesystemWrapper.basicFilesystem`: a root named `root` with the
two default subdirectories `local` and `iCloud` added through
`addSubdirectory`. -/
def FilesystemWrapper.basicFilesystem : Except FsError FilesystemWrapper := do
  let root := FakeDirectory.make "root"
  let (root, _) ← root.addSubdirectory (FakeDirectory.make "local")
  let (root, _) ← root.addSubdirectory (FakeDirectory.make "iCloud")
  return ⟨root⟩

/-- Fold step of the loop in `directoriesFromPath`: attach a fresh
directory named after the token directly under the accumulated root. -/
def addTokenDir (r : FakeDirectory) (t : String) : Except FsError FakeDirectory :=
  (r.addSubdirectory (FakeDirectory.make t)).map (fun p => p.1)

/-- `FilesystemWrapper.directoriesFromPath`: splits on `/`, throws
`Invalid path.` on zero tokens, then adds one sibling subdirectory per
token to a fresh `basicFilesystem` root and returns that root. -/
def FilesystemWrapper.directoriesFromPath (path : String) :
    Except FsError FakeDirectory := do
  let tokens := splitSlash path
  if tokens.length = 0 then throw .invalidPath
  let w ← FilesystemWrapper.basicFilesystem
  tokens.foldlM addTokenDir w.root

/-- File-uniqueness invariant of a container: the (name, extension)
pairs of the immediate child files are pairwise distinct. -/
def filesUnique (d : FakeDirectory) : Prop :=
  (d.files.map (fun f => (f.name, f.extension))).Nodup

/-- Subdirectory-uniqueness invariant of a container: the names of the
immediate subdirectories are pairwise distinct. -/
def subdirsUnique (d : FakeDirectory) : Prop :=
  (d.subdirectories.map FakeDirectory.name).Nodup

instance (d : FakeDirectory) : Decidable (filesUnique d) := by
  unfold filesUnique; infer_instance

instance (d : FakeDirectory) : Decidable (subdirsUnique d) := by
  unfold subdirsUnique; infer_instance

/-! ## Helper lemmas -/

mutual

theorem FakeDirectory.beq_refl : ∀ (d : FakeDirectory), d.beq d = true
  | .mk n fs bs ds => by
    simp [FakeDirectory.beq, FakeDirectory.beqList_refl ds]

theorem FakeDirectory.beqList_refl :
    ∀ (ds : List FakeDirectory), FakeDirectory.beq.beqList ds ds = true
  | [] => rfl
  | d :: ds => by
    simp [FakeDirectory.beq.beqList, FakeDirectory.beq_refl d,
      FakeDirectory.beqList_refl ds]

end

theorem FakeDirectory.beq_name {d₁ d₂ : FakeDirectory} (h : d₁.beq d₂ = true) :
    d₁.name = d₂.name := by
  cases d₁ with
  | mk n₁ f₁ b₁ s₁ =>
    cases d₂ with
    | mk n₂ f₂ b₂ s₂ =>
      simp [FakeDirectory.beq] at h
      exact h.1.1.1

theorem filter_length_pos_iff_any {α : Type} (p : α → Bool) (l : List α) :
    0 < (l.filter p).length ↔ l.any p = true := by
  rw [List.length_pos, Ne, List.filter_eq_nil_iff, List.any_eq_true]
  push_neg
  simp

/-- The clean specification equation for `addFile`: error on a
(name, extension) collision, else append. -/
theorem addFile_eq (d : FakeDirectory) (f : FakeFile) :
    d.addFile f =
      if d.files.any (fun g => g.name == f.name && g.extension == f.extension) then
        .error (.duplicateFile f.name)
      else
        .ok (.mk d.name (d.files ++ [f]) d.bookmarks d.subdirectories) := by
  unfold FakeDirectory.addFile
  by_cases h : d.files.any (fun g => g.name == f.name && g.extension == f.extension) = true
  · rw [if_pos ((filter_length_pos_iff_any _ _).mpr h), if_pos h]
  · rw [if_neg (fun hp => h ((filter_length_pos_iff_any _ _).mp hp)), if_neg h]

theorem indexOf_append_singleton {l : List FakeDirectory} {c : FakeDirectory}
    (h : ∀ s ∈ l, s.name ≠ c.name) : (l ++ [c]).indexOf? c = some l.length := by
  induction l with
  | nil =>
    rw [List.nil_append, List.indexOf?_cons]
    simp only [List.length_nil]
    rw [if_pos]
    show FakeDirectory.beq c c = true
    exact FakeDirectory.beq_refl c
  | cons x xs ih =>
    rw [List.cons_append, List.indexOf?_cons, if_neg, ih (fun s hs => h s (by simp [hs]))]
    · simp
    · show ¬ FakeDirectory.beq x c = true
      intro hbeq
      exact h x (by simp) (FakeDirectory.beq_name hbeq)

/-- The clean specification equation for `addSubdirectory`: error on a
name collision; else the child is appended and the very child handed in
is returned (the post-push `indexOf` lookup always finds it, because no
earlier sibling can share its name past the guard). -/
theorem addSubdirectory_eq (d c : FakeDirectory) :
    d.addSubdirectory c =
      if d.subdirectories.any (fun s => s.name == c.name) then
        .error (.duplicateDir c.name)
      else
        .ok (.mk d.name d.files d.bookmarks (d.subdirectories ++ [c]), c) := by
  unfold FakeDirectory.addSubdirectory
  by_cases h : d.subdirectories.any (fun s => s.name == c.name) = true
  · rw [if_pos ((filter_length_pos_iff_any _ _).mpr h), if_pos h]
  · rw [if_neg (fun hp => h ((filter_length_pos_iff_any _ _).mp hp)), if_neg h]
    have hnames : ∀ s ∈ d.subdirectories, s.name ≠ c.name := by
      intro s hs hn
      exact h (by rw [List.any_eq_true]; exact ⟨s, hs, by simp [hn]⟩)
    rw [indexOf_append_singleton hnames]
    simp [List.getD_eq_getElem?_getD, List.getElem?_concat_length]

theorem splitSlashAux_ne_nil : ∀ (cs : List Char), splitSlashAux cs ≠ []
  | [] => by simp [splitSlashAux]
  | c :: cs => by
    unfold splitSlashAux
    cases h : splitSlashAux cs with
    | nil => simp
    | cons t ts => by_cases hc : c = '/' <;> simp [hc]

theorem splitSlash_ne_nil (path : String) : splitSlash path ≠ [] := by
  unfold splitSlash
  intro h
  exact splitSlashAux_ne_nil path.data (List.map_eq_nil_iff.mp h)

theorem addTokenDir_ne_invalidPath (r : FakeDirectory) (t : String) :
    addTokenDir r t ≠ .error .invalidPath := by
  unfold addTokenDir
  rw [addSubdirectory_eq]
  split <;> simp [Except.map]

theorem foldTokens_ne_invalidPath : ∀ (toks : List String) (r : FakeDirectory),
    toks.foldlM addTokenDir r ≠ .error .invalidPath
  | [], r => by simp [List.foldlM_nil, Pure.pure, Except.pure]
  | t :: ts, r => by
    rw [List.foldlM_cons]
    cases h : addTokenDir r t with
    | ok r' =>
      simp only [Bind.bind, Except.bind, h]
      exact foldTokens_ne_invalidPath ts r'
    | error e =>
      simp only [Bind.bind, Except.bind, h]
      intro hcontra
      exact addTokenDir_ne_invalidPath r t (h.trans (congrArg Except.error
        (Except.error.inj hcontra)))

theorem make_name (t : String) : (FakeDirectory.make t).name = t := rfl

theorem addTokenDir_dup (r : FakeDirectory) (t : String)
    (h : t ∈ r.subdirectories.map FakeDirectory.name) :
    addTokenDir r t = .error (.duplicateDir t) := by
  unfold addTokenDir
  rw [addSubdirectory_eq]
  rw [if_pos]
  · rfl
  · rw [List.any_eq_true]
    rcases List.mem_map.mp h with ⟨s, hs, hname⟩
    exact ⟨s, hs, by simp [make_name, hname]⟩

theorem addTokenDir_ok (r : FakeDirectory) (t : String)
    (h : ¬ t ∈ r.subdirectories.map FakeDirectory.name) :
    addTokenDir r t =
      .ok (.mk r.name r.files r.bookmarks (r.subdirectories ++ [FakeDirectory.make t])) := by
  unfold addTokenDir
  rw [addSubdirectory_eq]
  rw [if_neg]
  · rfl
  · rw [List.any_eq_true]
    rintro ⟨s, hs, hname⟩
    rw [make_name, beq_iff_eq] at hname
    exact h (List.mem_map.mpr ⟨s, hs, hname⟩)

theorem foldTokens_collision : ∀ (toks : List String) (r : FakeDirectory),
    ((∃ t ∈ toks, t ∈ r.subdirectories.map FakeDirectory.name) ∨ ¬ toks.Nodup) →
    ∃ n, toks.foldlM addTokenDir r = .error (.duplicateDir n)
  | [], _, h => by
    rcases h with ⟨t, ht, _⟩ | hnd
    · exact absurd ht (List.not_mem_nil t)
    · exact absurd List.nodup_nil hnd
  | t :: ts, r, h => by
    rw [List.foldlM_cons]
    by_cases hmem : t ∈ r.subdirectories.map FakeDirectory.name
    · refine ⟨t, ?_⟩
      rw [addTokenDir_dup r t hmem]
      rfl
    · rw [addTokenDir_ok r t hmem]
      simp only [Bind.bind, Except.bind]
      apply foldTokens_collision ts
      have hnames : (FakeDirectory.mk r.name r.files r.bookmarks
          (r.subdirectories ++ [FakeDirectory.make t])).subdirectories.map FakeDirectory.name
          = r.subdirectories.map FakeDirectory.name ++ [t] := by
        simp [FakeDirectory.subdirectories, FakeDirectory.make, FakeDirectory.name]
      rw [hnames]
      rcases h with ⟨u, hu, humem⟩ | hnd
      · rcases List.mem_cons.mp hu with rfl | hu'
        · exact absurd humem hmem
        · exact Or.inl ⟨u, hu', by simp [humem]⟩
      · rw [List.nodup_cons] at hnd
        by_cases hts : t ∈ ts
        · exact Or.inl ⟨t, hts, by simp⟩
        · exact Or.inr (fun hnodup => hnd ⟨hts, hnodup⟩)

theorem addFiles_ok_files : ∀ (pre : List FakeFile) (d d₁ : FakeDirectory),
    d.addFiles pre = (d₁, none) → d₁.files = d.files ++ pre
  | [], d, d₁, h => by
    rw [FakeDirectory.addFiles] at h
    have hd : d = d₁ := congrArg Prod.fst h
    rw [← hd]
    simp
  | f :: fs, d, d₁, h => by
    rw [FakeDirectory.addFiles] at h
    cases haf : d.addFile f with
    | error e =>
      rw [haf] at h
      simp at h
    | ok d' =>
      rw [haf] at h
      have hrec := addFiles_ok_files fs d' d₁ h
      rw [addFile_eq] at haf
      split at haf
      · exact absurd haf (by simp)
      · have hd' : d' = .mk d.name (d.files ++ [f]) d.bookmarks d.subdirectories :=
          (Except.ok.inj haf).symm
        rw [hrec, hd']
        simp [FakeDirectory.files]

theorem addFiles_stops : ∀ (pre : List FakeFile) (d d₁ : FakeDirectory)
    (bad : FakeFile) (rest : List FakeFile) (e : FsError),
    d.addFiles pre = (d₁, none) → d₁.addFile bad = .error e →
    d.addFiles (pre ++ bad :: rest) = (d₁, some e)
  | [], d, d₁, bad, rest, e, hpre, hbad => by
    rw [FakeDirectory.addFiles] at hpre
    have hd : d = d₁ := congrArg Prod.fst hpre
    subst hd
    rw [List.nil_append, FakeDirectory.addFiles, hbad]
  | f :: fs, d, d₁, bad, rest, e, hpre, hbad => by
    rw [FakeDirectory.addFiles] at hpre
    cases haf : d.addFile f with
    | error e' =>
      rw [haf] at hpre
      simp at hpre
    | ok d' =>
      rw [haf] at hpre
      rw [List.cons_append, FakeDirectory.addFiles, haf]
      exact addFiles_stops fs d' d₁ bad rest e hpre hbad

/-- Concrete data for the C6 witness. -/
def c6d : FakeDirectory := FakeDirectory.make "d"

def c6a : FakeFile := FakeFile.make "a" "txt"

def c6c : FakeFile := FakeFile.make "c" "txt"

def c6d1 : FakeDirectory := FakeDirectory.mk "d" [FakeFile.make "a" "txt"] [] []

theorem addFile_preserves (d d₁ : FakeDirectory) (f : FakeFile)
    (hf : filesUnique d) (hs : subdirsUnique d) (h : d.addFile f = .ok d₁) :
    filesUnique d₁ ∧ subdirsUnique d₁ := by
  rw [addFile_eq] at h
  split at h
  · exact absurd h (by simp)
  · next hany =>
    have hd₁ : d₁ = .mk d.name (d.files ++ [f]) d.bookmarks d.subdirectories :=
      (Except.ok.inj h).symm
    subst hd₁
    refine ⟨?_, hs⟩
    unfold filesUnique at *
    simp only [FakeDirectory.files] at *
    rw [List.map_append, List.nodup_append]
    refine ⟨hf, by simp, ?_⟩
    intro x hx hx'
    simp only [List.map_cons, List.map_nil, List.mem_singleton] at hx'
    subst hx'
    rcases List.mem_map.mp hx with ⟨g, hg, hpair⟩
    apply hany
    rw [List.any_eq_true]
    refine ⟨g, hg, ?_⟩
    have h1 : g.name = f.name := congrArg Prod.fst hpair
    have h2 : g.extension = f.extension := congrArg Prod.snd hpair
    simp [h1, h2]

theorem addSubdirectory_preserves (d d₁ r c : FakeDirectory)
    (hf : filesUnique d) (hs : subdirsUnique d)
    (h : d.addSubdirectory c = .ok (d₁, r)) :
    filesUnique d₁ ∧ subdirsUnique d₁ := by
  rw [addSubdirectory_eq] at h
  split at h
  · exact absurd h (by simp)
  · next hany =>
    have hd₁ : d₁ = .mk d.name d.files d.bookmarks (d.subdirectories ++ [c]) :=
      (congrArg Prod.fst (Except.ok.inj h)).symm
    subst hd₁
    refine ⟨hf, ?_⟩
    unfold subdirsUnique at *
    simp only [FakeDirectory.subdirectories] at *
    rw [List.map_append, List.nodup_append]
    refine ⟨hs, by simp, ?_⟩
    intro x hx hx'
    simp only [List.map_cons, List.map_nil, List.mem_singleton] at hx'
    subst hx'
    rcases List.mem_map.mp hx with ⟨s, hsmem, hname⟩
    apply hany
    rw [List.any_eq_true]
    exact ⟨s, hsmem, by simp [hname]⟩

theorem addFiles_preserves : ∀ (fs : List FakeFile) (d : FakeDirectory),
    filesUnique d → subdirsUnique d →
    filesUnique (d.addFiles fs).1 ∧ subdirsUnique (d.addFiles fs).1
  | [], d, hf, hs => by rw [FakeDirectory.addFiles]; exact ⟨hf, hs⟩
  | f :: fs, d, hf, hs => by
    rw [FakeDirectory.addFiles]
    cases haf : d.addFile f with
    | error e => exact ⟨hf, hs⟩
    | ok d' =>
      obtain ⟨hf', hs'⟩ := addFile_preserves d d' f hf hs haf
      exact addFiles_preserves fs d' hf' hs'

theorem addSubdirs_preserves : ∀ (cs : List FakeDirectory) (d : FakeDirectory),
    filesUnique d → subdirsUnique d →
    filesUnique (d.addSubdirs cs).1 ∧ subdirsUnique (d.addSubdirs cs).1
  | [], d, hf, hs => by rw [FakeDirectory.addSubdirs]; exact ⟨hf, hs⟩
  | c :: cs, d, hf, hs => by
    rw [FakeDirectory.addSubdirs]
    cases hac : d.addSubdirectory c with
    | error e => exact ⟨hf, hs⟩
    | ok p =>
      obtain ⟨hf', hs'⟩ := addSubdirectory_preserves d p.1 p.2 c hf hs (by rw [hac])
      exact addSubdirs_preserves cs p.1 hf' hs'

/-- Concrete data for the C4 counterexample and witness. -/
def c4d0 : FakeDirectory := FakeDirectory.make "d" [FakeFile.make "b" "txt"]

def c4f1 : FakeFile := FakeFile.make "a" "txt"

def c4f2 : FakeFile := FakeFile.make "b" "txt"

def c4d1 : FakeDirectory :=
  FakeDirectory.mk "d" [FakeFile.make "b" "txt", FakeFile.make "a" "txt"] [] []

def c4wd : FakeDirectory := FakeDirectory.make "w"

def c4wf : FakeFile := FakeFile.make "a" "txt"

def c4wd1 : FakeDirectory := FakeDirectory.mk "w" [FakeFile.make "a" "txt"] [] []

/-- Concrete data for the C2 counterexample and witness. -/
def c2d : FakeDirectory :=
  FakeDirectory.make "w" [FakeFile.make "a" "txt"] [] [FakeDirectory.make "s"]

def c2d₁ : FakeDirectory :=
  FakeDirectory.mk "w" [FakeFile.make "a" "txt", FakeFile.make "b" "txt"] []
    [FakeDirectory.make "s"]

def c2d₂ : FakeDirectory :=
  FakeDirectory.mk "w" [FakeFile.make "a" "txt"] []
    [FakeDirectory.make "s", FakeDirectory.make "u"]

def c2fs : List FakeFile := [FakeFile.make "b" "txt", FakeFile.make "b" "txt"]

def c2cs : List FakeDirectory := [FakeDirectory.make "u", FakeDirectory.make "s"]

/-! ## Claim theorems -/

/-- C1: evaluation of the code at the failing input of the round-trip
claim.  After `writeExtendedAttribute("", "k")` the key `k` is present
(`allExtendedAttributes` lists it), yet `readExtendedAttribute("k")`
returns the null sentinel instead of the stored empty string, because
the truthiness test `if (attr)` conflates the falsy value `""` with
absence — contradicting the method's own doc comment (`null` only "if
the attribute doesn't exist").  A nonempty value round-trips. -/
theorem C1_empty_value_reads_null :
    ((FakeFile.make "n" "txt").writeExtendedAttribute "" "k").readExtendedAttribute "k"
      = none ∧
    ((FakeFile.make "n" "txt").writeExtendedAttribute "" "k").allExtendedAttributes
      = ["k"] ∧
    ((FakeFile.make "n" "txt").writeExtendedAttribute "v" "k").readExtendedAttribute "k"
      = some "v" :=
  ⟨rfl, rfl, rfl⟩

/-- C3: `directoriesFromPath "a/b/c"` yields the fresh basic root with
one sibling subdirectory per token appended directly under it (no
nesting — every added child is a leaf), and `listContents` on the result
is exactly `["local", "iCloud", "a", "b", "c"]`. -/
theorem C3_directoriesFromPath_flat :
    FilesystemWrapper.directoriesFromPath "a/b/c" =
      .ok (.mk "root" [] []
        [FakeDirectory.make "local", FakeDirectory.make "iCloud",
         FakeDirectory.make "a", FakeDirectory.make "b", FakeDirectory.make "c"]) ∧
    (FilesystemWrapper.directoriesFromPath "a/b/c").map FakeDirectory.listContents =
      .ok ["local", "iCloud", "a", "b", "c"] :=
  ⟨rfl, rfl⟩

/-- C5: `addSubdirectory dir` fails with the duplicate-directory error
exactly when a direct child already bears `dir`'s name; otherwise it
appends `dir` to the subdirectory list and returns the stored child,
which is the very directory handed in (reference identity in the source,
modelled as the returned value being `c` itself, stored as the last
element of the updated list). -/
theorem C5_addSubdirectory_spec (d c : FakeDirectory) :
    d.addSubdirectory c =
      if d.subdirectories.any (fun s => s.name == c.name) then
        .error (.duplicateDir c.name)
      else
        .ok (.mk d.name d.files d.bookmarks (d.subdirectories ++ [c]), c) :=
  addSubdirectory_eq d c

/-- C7: `basicFilesystem` returns a wrapper whose root is the container
named `root` holding exactly the subdirectories `local` and `iCloud` (in
that order) and no files, so listing the root yields
`["local", "iCloud"]`. -/
theorem C7_basicFilesystem_contents :
    FilesystemWrapper.basicFilesystem =
      .ok ⟨.mk "root" [] [] [FakeDirectory.make "local", FakeDirectory.make "iCloud"]⟩ ∧
    (FilesystemWrapper.basicFilesystem).map (fun w => w.root.listContents) =
      .ok ["local", "iCloud"] :=
  ⟨rfl, rfl⟩

/-- C10: `addTag` is idempotent: adding the same tag twice leaves the
tag collection (observed through `allTags`, in insertion order) exactly
as after adding it once; the second call is a no-op and, being total,
raises nothing. -/
theorem C10_addTag_idempotent (f : FakeFile) (t : String) :
    ((f.addTag t).addTag t).allTags = (f.addTag t).allTags := by
  unfold FakeFile.addTag FakeFile.allTags
  by_cases h : t ∈ f.tags
  · simp [h]
  · simp [h]

/-- C8: splitting any string on `/` yields at least one token (the
empty string yields one empty token), so the zero-token guard in
`directoriesFromPath` is unreachable and `directoriesFromPath` never
fails with the invalid-path error, whatever the input string. -/
theorem C8_invalidPath_unreachable (path : String) :
    splitSlash path ≠ [] ∧
    FilesystemWrapper.directoriesFromPath path ≠ .error .invalidPath := by
  refine ⟨splitSlash_ne_nil path, ?_⟩
  unfold FilesystemWrapper.directoriesFromPath
  have hlen : ¬ (splitSlash path).length = 0 := by
    rw [List.length_eq_zero]
    exact splitSlash_ne_nil path
  rw [if_neg hlen]
  have hb : FilesystemWrapper.basicFilesystem =
      .ok ⟨.mk "root" [] [] [FakeDirectory.make "local", FakeDirectory.make "iCloud"]⟩ :=
    rfl
  rw [hb]
  simp only [Bind.bind, Except.bind]
  exact foldTokens_ne_invalidPath _ _

/-- C9: whenever some `/`-separated segment of the path is `local` or
`iCloud`, or two segments coincide, `directoriesFromPath` fails with a
duplicate-directory error propagated from `addSubdirectory` on the fresh
basic root (whose default children are `local` and `iCloud`) — it
neither returns a tree nor raises the invalid-path error. -/
theorem C9_duplicate_segments (path : String)
    (h : (∃ t ∈ splitSlash path, t = "local" ∨ t = "iCloud") ∨
      ¬ (splitSlash path).Nodup) :
    ∃ n, FilesystemWrapper.directoriesFromPath path = .error (.duplicateDir n) := by
  unfold FilesystemWrapper.directoriesFromPath
  have hlen : ¬ (splitSlash path).length = 0 := by
    rw [List.length_eq_zero]
    exact splitSlash_ne_nil path
  rw [if_neg hlen]
  have hb : FilesystemWrapper.basicFilesystem =
      .ok ⟨.mk "root" [] [] [FakeDirectory.make "local", FakeDirectory.make "iCloud"]⟩ :=
    rfl
  rw [hb]
  simp only [Bind.bind, Except.bind]
  apply foldTokens_collision
  rcases h with ⟨t, ht, hlo⟩ | hnd
  · refine Or.inl ⟨t, ht, ?_⟩
    rcases hlo with rfl | rfl <;>
      simp [FakeDirectory.subdirectories, FakeDirectory.make, FakeDirectory.name]
  · exact Or.inr hnd

/-- C9 witness: the path `x/x` has two equal segments and indeed yields
a duplicate-directory error. -/
theorem C9_witness :
    ((∃ t ∈ splitSlash "x/x", t = "local" ∨ t = "iCloud") ∨
      ¬ (splitSlash "x/x").Nodup) ∧
    ∃ n, FilesystemWrapper.directoriesFromPath "x/x" = .error (.duplicateDir n) :=
  ⟨Or.inr (by decide), C9_duplicate_segments "x/x" (Or.inr (by decide))⟩

/-- C6: `addFiles` applies `addFile` to each element in the given order
and stops at the first failing element: when every element of `pre`
succeeds and `bad` then fails, the whole call returns that failure while
the state keeps exactly the files added before (`d₁.files = d.files ++
pre`) — no transactional rollback, and the elements after `bad` are
never attempted. -/
theorem C6_addFiles_no_rollback (d d₁ : FakeDirectory) (pre rest : List FakeFile)
    (bad : FakeFile) (e : FsError)
    (hpre : d.addFiles pre = (d₁, none))
    (hbad : d₁.addFile bad = .error e) :
    d.addFiles (pre ++ bad :: rest) = (d₁, some e) ∧ d₁.files = d.files ++ pre :=
  ⟨addFiles_stops pre d d₁ bad rest e hpre hbad, addFiles_ok_files pre d d₁ hpre⟩

/-- C6 witness: adding `[a.txt, a.txt, c.txt]` to an empty directory
stops at the duplicate second element, keeping the first file and never
attempting `c.txt`. -/
theorem C6_witness :
    c6d.addFiles [c6a, c6a, c6c] = (c6d1, some (.duplicateFile "a")) ∧
    c6d1.files = c6d.files ++ [c6a] :=
  C6_addFiles_no_rollback c6d c6d1 [c6a] [c6c] c6a (.duplicateFile "a") rfl rfl

/-- C2 counterexample: the constructor performs no validation, so a
`FakeDirectory` created through the public constructor with two initial
files sharing name and extension violates the file-uniqueness invariant
— refuting the claim that every directory reachable through the public
API (including the constructor with optional initial files) satisfies
it. -/
theorem C2_counterexample :
    ¬ filesUnique
      (FakeDirectory.make "d" [FakeFile.make "a" "txt", FakeFile.make "a" "txt"]) := by
  decide

/-- C2 (amended): on any directory satisfying both uniqueness
invariants, every operation preserves them — `addFile` and
`addSubdirectory` on success, and `addFiles`/`addSubdirectories`
unconditionally on the state they leave behind (also when they stop at a
failing element).  The constructor itself does not validate its optional
initial lists, so it establishes the invariants only when those lists
already satisfy them. -/
theorem C2_invariants_preserved (d d₁ d₂ r : FakeDirectory) (f : FakeFile)
    (c : FakeDirectory) (fs : List FakeFile) (cs : List FakeDirectory)
    (hf : filesUnique d) (hs : subdirsUnique d) :
    (d.addFile f = .ok d₁ → filesUnique d₁ ∧ subdirsUnique d₁) ∧
    (d.addSubdirectory c = .ok (d₂, r) → filesUnique d₂ ∧ subdirsUnique d₂) ∧
    (filesUnique (d.addFiles fs).1 ∧ subdirsUnique (d.addFiles fs).1) ∧
    (filesUnique (d.addSubdirs cs).1 ∧ subdirsUnique (d.addSubdirs cs).1) :=
  ⟨addFile_preserves d d₁ f hf hs,
   addSubdirectory_preserves d d₂ r c hf hs,
   addFiles_preserves fs d hf hs,
   addSubdirs_preserves cs d hf hs⟩

/-- C2 witness: a concrete invariant-satisfying directory keeps both
invariants under a successful `addFile`, a successful `addSubdirectory`,
a failing `addFiles` and a failing `addSubdirectories`. -/
theorem C2_witness :
    filesUnique c2d ∧ subdirsUnique c2d ∧
    (filesUnique c2d₁ ∧ subdirsUnique c2d₁) ∧
    (filesUnique c2d₂ ∧ subdirsUnique c2d₂) ∧
    (filesUnique (c2d.addFiles c2fs).1 ∧ subdirsUnique (c2d.addFiles c2fs).1) ∧
    (filesUnique (c2d.addSubdirs c2cs).1 ∧ subdirsUnique (c2d.addSubdirs c2cs).1) := by
  have T := C2_invariants_preserved c2d c2d₁ c2d₂ (FakeDirectory.make "u")
    (FakeFile.make "b" "txt") (FakeDirectory.make "u") c2fs c2cs
    (by decide) (by decide)
  exact ⟨by decide, by decide, T.1 rfl, T.2.1 rfl, T.2.2.1, T.2.2.2⟩

/-- C4 counterexample: in a container already holding `b.txt`, adding
`a.txt` succeeds, and although `a.txt` and `b.txt` differ in name (the
claim's "otherwise" branch, which predicts a successful append), the
subsequent `addFile b.txt` fails with the duplicate-file error because
it collides with the pre-existing file — so the claim as stated is false
for containers with prior contents. -/
theorem C4_counterexample :
    c4d0.addFile c4f1 = .ok c4d1 ∧
    ¬(c4f1.name = c4f2.name ∧ c4f1.extension = c4f2.extension) ∧
    c4d1.addFile c4f2 = .error (.duplicateFile "b") ∧
    ¬ c4d1.addFile c4f2 =
      .ok (.mk c4d1.name (c4d1.files ++ [c4f2]) c4d1.bookmarks c4d1.subdirectories) := by
  refine ⟨rfl, by decide, rfl, ?_⟩
  intro hc
  have h3 : (Except.error (FsError.duplicateFile "b") : Except FsError FakeDirectory) =
      .ok (.mk c4d1.name (c4d1.files ++ [c4f2]) c4d1.bookmarks c4d1.subdirectories) := hc
  exact Except.noConfusion h3

/-- C4 (amended): after `addFile f₁` succeeds, if `f₂` matches `f₁` on
both name and extension then `addFile f₂` fails with a duplicate-file
error whose message names the colliding file (the throw precedes the
push, so the failed call leaves the file list unchanged — failure
carries no new state in this embedding); and if `f₂` collides with no
file currently stored (neither `f₁` nor any pre-existing file) then
`addFile f₂` appends `f₂` at the end of the file list. -/
theorem C4_addFile_spec (d d₁ : FakeDirectory) (f₁ f₂ : FakeFile)
    (h : d.addFile f₁ = .ok d₁) :
    (f₁.name = f₂.name ∧ f₁.extension = f₂.extension →
      d₁.addFile f₂ = .error (.duplicateFile f₂.name) ∧
      (FsError.duplicateFile f₂.name).message =
        "A file with the name \x27" ++ f₂.name ++ "\x27 already exists.") ∧
    ((∀ g ∈ d₁.files, ¬(g.name = f₂.name ∧ g.extension = f₂.extension)) →
      d₁.addFile f₂ = .ok (.mk d₁.name (d₁.files ++ [f₂]) d₁.bookmarks d₁.subdirectories)) := by
  constructor
  · rintro ⟨hn, he⟩
    refine ⟨?_, rfl⟩
    rw [addFile_eq, if_pos]
    rw [List.any_eq_true]
    have hf₁ : f₁ ∈ d₁.files := by
      rw [addFile_eq] at h
      split at h
      · exact absurd h (by simp)
      · have hd₁ : d₁ = .mk d.name (d.files ++ [f₁]) d.bookmarks d.subdirectories :=
          (Except.ok.inj h).symm
        subst hd₁
        simp [FakeDirectory.files]
    exact ⟨f₁, hf₁, by simp [hn, he]⟩
  · intro hno
    rw [addFile_eq, if_neg]
    rw [List.any_eq_true]
    rintro ⟨g, hg, hmatch⟩
    simp only [Bool.and_eq_true, beq_iff_eq] at hmatch
    exact hno g hg hmatch

/-- C4 witness: adding `a.txt` to an empty container and then adding an
identically named file yields the duplicate-file error. -/
theorem C4_witness :
    c4wd.addFile c4wf = .ok c4wd1 ∧
    c4wd1.addFile c4wf = .error (.duplicateFile "a") :=
  ⟨rfl, ((C4_addFile_spec c4wd c4wd1 c4wf c4wf rfl).1 ⟨rfl, rfl⟩).1⟩

end NiosFs
